import Mathlib

/-!
Verification of the `salesforce-to-types` generator against its specification.

The whole program lives in `src/libs/generator.ts`.  The definitions below are a
shallow embedding of that file:

* JavaScript strings are Lean `String`s.  Wherever the source tests a string for
  truthiness (`if (s) ...`), the empty string, `null` and `undefined` are
  observationally indistinguishable in this program, so optional strings are
  embedded as `String` with `""` standing for an absent value and truthiness
  becomes the test `s ≠ ""`.
* `sObjects.find(f => f === r)` returns the found element itself, so the guard
  `if (sObjects && sObjects.find(...))` is truthy exactly when the searched
  name is a member of the list and is itself a non-empty string; `none` stands
  for an `undefined` `sObjects` argument.
* `Array.prototype.findIndex` (returning `-1` on failure), first-occurrence
  `String.prototype.replace`, `Array.prototype.splice(i, 1)` and the JS `Set`
  (insertion-ordered, duplicate-free) are each embedded by a small function
  mirroring those semantics.
* The per-entity fetches of batch mode are embedded as a function
  `describeOf : String → DescribeResult`; the order in which the concurrent
  fetches complete is a parameter (`completion`), a permutation of the
  requested names, since completion order only influences the insertion order
  into the shared unmapped set.
* File-system writes and stderr output are embedded as an event trace
  (`GenEvent`); `path.join(dir, f)` is embedded as `dir ++ "/" ++ f`.
-/

namespace SalesforceToTypes

/-- One field descriptor of a `describe` result (the attributes of
`describe.fields` elements that `generateSObjectTypeContents` reads):
`name`, `type`, `calculated`, `referenceTo`, `relationshipName`
(`""` encodes an absent `relationshipName`). -/
structure Field where
  name : String
  type : String
  calculated : Bool
  referenceTo : List String
  relationshipName : String
deriving DecidableEq, Repr

/-- One child-relationship descriptor of a `describe` result:
`childSObject`, `relationshipName` (`""` encodes absence) and
`junctionReferenceTo`. -/
structure ChildRelationship where
  childSObject : String
  relationshipName : String
  junctionReferenceTo : List String
deriving DecidableEq, Repr

/-- The part of a `connection.describe(objectName)` result that the generator
reads: the ordered field list and the ordered child-relationship list. -/
structure DescribeResult where
  fields : List Field
  childRelationships : List ChildRelationship
deriving DecidableEq, Repr

/-- The `header` template string of `generator.ts` (lines 6-15). -/
def header : String :=
  "\n/**\n * DO NOT MODIFY THIS FILE!\n *\n * This file is generated by the salesforce-to-types plugin and\n * may be regenerated in the future. It is recommended to make\n * changes to that plugin then regenerate these files.\n *\n */\n"

/-- The `sobject` template string (lines 17-23): contents of the static
`sobject.ts` preamble file. -/
def sobject : String :=
  header ++ "\nimport \x7b ID, Attribute \x7d from \x27./sobjectFieldTypes\x27;\n\nexport type SObjectAttribute<TString> = SObject & Attribute<TString>;\nexport interface SObject \x7b\n  Id: ID;\n\x7d\n"

/-- The `sobjectFieldTypes` template string (lines 25-31): contents of the
static `sobjectFieldTypes.ts` preamble file. -/
def sobjectFieldTypes : String :=
  header ++ "\nexport type ID = string;\nexport type DateString = string;\nexport type PhoneString = string;\nexport type Attribute<TString> = \x7b attributes: \x7b type: TString \x7d \x7d\nexport type ChildRecords<T, TString> = \x7b records: Array<Partial<T> & Attribute<TString>> \x7d;\n"

/-- The `switch (field['type'])` statement of lines 80-105: maps a field type
tag to the emitted scalar type expression, with the `default` arm producing
the string fallback annotated with the original tag. -/
def scalarTypeName (t : String) : String :=
  if t = "boolean" then "boolean"
  else if t = "int" ∨ t = "double" ∨ t = "currency" then "number"
  else if t = "date" ∨ t = "datetime" then "DateString | null"
  else if t = "phone" then "PhoneString"
  else if t = "string" ∨ t = "textarea" then "string"
  else if t = "reference" then "ID"
  else "string //" ++ t

/-- Truthiness of `sObjects && sObjects.find(f => f === r)` (lines 113 and
126): `sObjects` must be defined, and `find` returns the matched element
itself, which is truthy exactly when it is a non-empty string. -/
def sObjectsFindTruthy : Option (List String) → String → Bool
  | none, _ => false
  | some l, r => l.contains r && !(r == "")

/-- One step of the `field.referenceTo.forEach` accumulation of lines 112-117:
`refTypeName = refTypeName ? refTypeName + " | " + r : r`, guarded by the
membership test.  The accumulator starts as `""` (JS `undefined` and `""` are
both falsy and are never distinguished here). -/
def refStep (sObjects : Option (List String)) (acc r : String) : String :=
  if sObjectsFindTruthy sObjects r then (if acc = "" then r else acc ++ " | " ++ r) else acc

/-- The full `refTypeName` accumulation over `field.referenceTo`
(lines 111-117). -/
def refTypeNameFold (sObjects : Option (List String)) (l : List String) : String :=
  l.foldl (refStep sObjects) ""

/-- The relationship property emitted for a field by lines 110-121, if any:
`some (relationshipName, refTypeName)` when the field is a reference and the
accumulated `refTypeName` is truthy, `none` otherwise. -/
def emittedRefProp (sObjects : Option (List String)) (f : Field) : Option (String × String) :=
  if f.type = "reference" then
    let u := refTypeNameFold sObjects f.referenceTo
    if u = "" then none else some (f.relationshipName, u)
  else none

/-- The text appended for one field by the `describe.fields.forEach` body
(lines 74-122): nothing for the `Id` field, otherwise the scalar property
line, the `//calculated` annotation when `calculated` is set, and the
reference relationship property when one is resolved. -/
def fieldContents (sObjects : Option (List String)) (f : Field) : String :=
  if f.name = "Id" then ""
  else
    "\n  " ++ f.name ++ ": " ++ scalarTypeName f.type ++ ";"
      ++ (if f.calculated then " //calculated" else "")
      ++ (match emittedRefProp sObjects f with
          | some p => "\n  " ++ p.1 ++ ": " ++ p.2 ++ ";"
          | none => "")

/-- JS `Array.prototype.findIndex(f => f === x)`: index of the first
occurrence, `-1` when absent (line 136). -/
def jsFindIndex : List String → String → Int
  | [], _ => -1
  | a :: as, x =>
    if a = x then 0
    else
      let r := jsFindIndex as x
      if r = -1 then -1 else r + 1

/-- Insertion into the JS `Set` `unmappedChildRelationships` (line 145):
append when absent, keep otherwise (a JS `Set` is insertion-ordered and
duplicate-free). -/
def setAdd (l : List String) (x : String) : List String :=
  if l.contains x then l else l ++ [x]

/-- Classification of one child relationship, the branch structure of
lines 123-151.  `clone` is the current state of
`specialChildrenToMapClone`. -/
inductive ChildOutcome where
  | namedKnown (rel child : String)
  | namedUnknown (rel child : String)
  | junction (targets : List String) (child : String)
  | bare (child : String) (idx : Nat)
  | nothing
deriving DecidableEq, Repr

/-- The branch decisions of lines 123-151 for one child relationship, given
the current `specialChildrenToMapClone` state.  The `bare` arm records the
`findIndex` result that line 138 splices out. -/
def classifyChild (sObjects : Option (List String)) (clone : List String)
    (child : ChildRelationship) : ChildOutcome :=
  if sObjectsFindTruthy sObjects child.childSObject then
    if child.relationshipName = "" then
      if child.junctionReferenceTo.length > 0 then
        ChildOutcome.junction child.junctionReferenceTo child.childSObject
      else if jsFindIndex clone child.childSObject > 0 then
        ChildOutcome.bare child.childSObject (jsFindIndex clone child.childSObject).toNat
      else ChildOutcome.nothing
    else ChildOutcome.namedKnown child.relationshipName child.childSObject
  else if child.relationshipName = "" then ChildOutcome.nothing
  else ChildOutcome.namedUnknown child.relationshipName child.childSObject

/-- The text appended to `typeContents` for one classified child relationship
(lines 128, 132, 139, 146).  Note the junction arm indents with a single
space where the others use two. -/
def outcomeText : ChildOutcome → String
  | ChildOutcome.namedKnown rel c =>
      "\n  " ++ rel ++ ": ChildRecords<" ++ c ++ ", \x27" ++ c ++ "\x27>;"
  | ChildOutcome.namedUnknown rel c =>
      "\n  " ++ rel ++ ": ChildRecords<" ++ c ++ ", \x27" ++ c ++ "\x27>;"
  | ChildOutcome.junction js c =>
      String.join (js.map (fun j => "\n " ++ j ++ ": ChildRecords<" ++ c ++ ", \x27" ++ c ++ "\x27>;"))
  | ChildOutcome.bare c _ => "\n  " ++ c ++ ": " ++ c ++ ";"
  | ChildOutcome.nothing => ""

/-- Effect of one classified child on `specialChildrenToMapClone`: only the
`bare` arm splices (line 138). -/
def applyClone (clone : List String) : ChildOutcome → List String
  | ChildOutcome.bare _ i => clone.eraseIdx i
  | _ => clone

/-- Effect of one classified child on `unmappedChildRelationships`: only the
`namedUnknown` arm inserts (line 145). -/
def applyUnmapped (u : List String) : ChildOutcome → List String
  | ChildOutcome.namedUnknown _ c => setAdd u c
  | _ => u

/-- Mutable state threaded through the `describe.childRelationships.forEach`
loop: the accumulated `typeContents`, the shared
`unmappedChildRelationships` and the per-call `specialChildrenToMapClone`. -/
structure ChildState where
  contents : String
  unmapped : List String
  clone : List String
deriving DecidableEq, Repr

/-- The body of `describe.childRelationships.forEach` (lines 123-152). -/
def processChild (sObjects : Option (List String)) (st : ChildState)
    (child : ChildRelationship) : ChildState :=
  let o := classifyChild sObjects st.clone child
  { contents := st.contents ++ outcomeText o
    unmapped := applyUnmapped st.unmapped o
    clone := applyClone st.clone o }

/-- The `generateSObjectTypeContents` method (lines 67-155): returns the
generated text block together with the final state of the shared
`unmappedChildRelationships` set, whose prior contents enter as
`unmapped0`. -/
def generateSObjectTypeContents (objectName : String) (describe : DescribeResult)
    (sObjects : Option (List String)) (specialChildrenToMap : Option (List String))
    (unmapped0 : List String) : String × List String :=
  let start := "\n\nexport interface " ++ objectName ++ " extends SObjectAttribute<\x27" ++ objectName ++ "\x27> \x7b"
  let afterFields := start ++ String.join (describe.fields.map (fieldContents sObjects))
  let st := describe.childRelationships.foldl (processChild sObjects)
      ⟨afterFields, unmapped0, specialChildrenToMap.getD []⟩
  (st.contents ++ "\n\x7d;\n", st.unmapped)

/-- The `generateFileHeader` method (lines 157-164), including the template's
literal indentation. -/
def generateFileHeader : String :=
  "\n      " ++ header ++ "\n\n      import \x7b SObjectAttribute \x7d from \x27./sobject\x27;\n\n      import \x7b ID, ChildRecords, DateString, PhoneString \x7d from \x27./sobjectFieldTypes\x27;\n    "

/-- JS first-occurrence `String.prototype.replace(pat, '')` on character
lists: remove the leftmost occurrence of `pat`, if any. -/
def jsReplaceFirstList : List Char → List Char → List Char
  | [], _ => []
  | c :: rest, pat =>
    if pat.isPrefixOf (c :: rest) then (c :: rest).drop pat.length
    else c :: jsReplaceFirstList rest pat

/-- JS `s.replace(pat, '')` with a string pattern (first occurrence only). -/
def jsReplaceFirst (s pat : String) : String :=
  String.mk (jsReplaceFirstList s.data pat.data)

/-- The `pascalObjectName` computation of line 169:
`objectName.replace('__c', '').replace('_', '')`. -/
def pascalObjectName (objectName : String) : String :=
  jsReplaceFirst (jsReplaceFirst objectName "__c") "_"

/-- JS `String.prototype.toLowerCase`, character by character (the names fed
to it here are ASCII). -/
def jsToLowerCase (s : String) : String :=
  String.mk (s.data.map Char.toLower)

/-- The file name used by single-entity mode (line 171):
`pascalObjectName.toLowerCase() + '.ts'`. -/
def singleFileName (objectName : String) : String :=
  jsToLowerCase (pascalObjectName objectName) ++ ".ts"

/-- The file contents written by `generateSObject` (lines 166-175): the
header is assigned to `typeContents` and then overwritten by the bare type
block before the write, mirrored here by the shadowing `let`. -/
def singleFileContents (objectName : String) (describe : DescribeResult) : String :=
  let typeContents := generateFileHeader
  let typeContents := (generateSObjectTypeContents objectName describe none none []).1
  typeContents

/-- One step of the batch run over the shared unmapped set: the builder call
issued for entity `s` (line 216), threading the set. -/
def batchStep (sobjects special : List String) (describeOf : String → DescribeResult)
    (u : List String) (s : String) : List String :=
  (generateSObjectTypeContents s (describeOf s) (some sobjects) (some special) u).2

/-- Contents of `unmappedChildRelationships` after all fetches of a batch run
have completed.  Each async builder body runs synchronously once its fetch
resolves, so the insertions happen entity-block by entity-block in fetch
completion order, which `completion` records (a permutation of the requested
names). -/
def batchUnmapped (sobjects special : List String) (describeOf : String → DescribeResult)
    (completion : List String) : List String :=
  completion.foldl (batchStep sobjects special describeOf) []

/-- Lexicographic comparison of character lists, the order JS
`Array.prototype.sort()` applies to strings (comparison unit by unit). -/
def charListLeb : List Char → List Char → Bool
  | [], _ => true
  | _ :: _, [] => false
  | a :: as, b :: bs => if a = b then charListLeb as bs else decide (a < b)

/-- The default JS string sort order as a binary relation on strings. -/
def jsStrLe (a b : String) : Prop :=
  charListLeb a.data b.data = true

instance : DecidableRel jsStrLe :=
  fun a b => inferInstanceAs (Decidable (charListLeb a.data b.data = true))

instance : IsTotal String jsStrLe where
  total := by
    have key : ∀ as bs : List Char, charListLeb as bs = true ∨ charListLeb bs as = true := by
      intro as
      induction as with
      | nil => intro bs; left; rfl
      | cons x xs ih =>
        intro bs
        cases bs with
        | nil => right; rfl
        | cons y ys =>
          by_cases hxy : x = y
          · subst hxy
            rcases ih ys with h | h
            · left
              simpa [charListLeb] using h
            · right
              simpa [charListLeb] using h
          · rcases lt_or_gt_of_ne hxy with h | h
            · left
              simp [charListLeb, hxy, h]
            · right
              have hyx : ¬ y = x := fun he => hxy he.symm
              simp [charListLeb, hyx, h]
    intro a b
    exact key a.data b.data

instance : IsTrans String jsStrLe where
  trans := by
    have key : ∀ as bs cs : List Char, charListLeb as bs = true → charListLeb bs cs = true →
        charListLeb as cs = true := by
      intro as
      induction as with
      | nil => intro bs cs _ _; rfl
      | cons x xs ih =>
        intro bs cs hab hbc
        cases bs with
        | nil => simp [charListLeb] at hab
        | cons y ys =>
          cases cs with
          | nil => simp [charListLeb] at hbc
          | cons z zs =>
            by_cases hxy : x = y
            · subst hxy
              by_cases hyz : x = z
              · subst hyz
                simp only [charListLeb, if_pos rfl] at hab hbc ⊢
                exact ih ys zs hab hbc
              · simp only [charListLeb, if_pos rfl] at hab
                simp only [charListLeb, if_neg hyz] at hbc ⊢
                exact hbc
            · simp only [charListLeb, if_neg hxy] at hab
              have hlt1 : x < y := by simpa using hab
              by_cases hyz : y = z
              · subst hyz
                simp only [charListLeb, if_neg hxy]
                simpa using hlt1
              · simp only [charListLeb, if_neg hyz] at hbc
                have hlt2 : y < z := by simpa using hbc
                have hxz : x < z := lt_trans hlt1 hlt2
                have hne : ¬ x = z := ne_of_lt hxz
                simp [charListLeb, hne, hxz]
    intro a b c hab hbc
    exact key a.data b.data c.data hab hbc

/-- The sorted stub list of lines 224-227: `Array.from(set).sort()`. -/
def batchStubList (sobjects special : List String) (describeOf : String → DescribeResult)
    (completion : List String) : List String :=
  List.insertionSort jsStrLe (batchUnmapped sobjects special describeOf completion)

/-- One stub line of line 226: `\ntype X = any; ` (with the trailing
space). -/
def stubLine (u : String) : String :=
  "\ntype " ++ u ++ " = any; "

/-- The document written to `sobjects.ts` by `generateSObjectsConfig`
(lines 209-232).  Line 221 concatenates each pending promise object into the
string, and JS coerces a `Promise` to the text `[object Promise]`, so the
entity blocks themselves never reach the document; only their side effect on
the unmapped set does. -/
def batchDocument (sobjects special : List String) (describeOf : String → DescribeResult)
    (completion : List String) : String :=
  generateFileHeader
    ++ String.join (sobjects.map (fun _ => "[object Promise]"))
    ++ "\n// unmapped types:"
    ++ String.join ((batchStubList sobjects special describeOf completion).map stubLine)

/-- Observable I/O of one `generate()` run: file writes and stderr
messages. -/
inductive GenEvent where
  | writeFile (path contents : String)
  | stderr (msg : String)
deriving DecidableEq, Repr

/-- The flag values `generate()` reads; `""` encodes an unsupplied `-s` or
`-c` flag (JS truthiness). -/
structure Flags where
  sobject : String
  config : String
  outputdir : String
deriving DecidableEq, Repr

/-- The `generate` method (lines 52-65): the two static preamble files are
written unconditionally first, then the mode dispatch runs.  `cfgSobjects`
and `cfgSpecial` are the parsed config-file contents used by batch mode. -/
def generate (flags : Flags) (describeOf : String → DescribeResult)
    (cfgSobjects cfgSpecial : List String) : List GenEvent :=
  [GenEvent.writeFile (flags.outputdir ++ "/sobject.ts") sobject,
   GenEvent.writeFile (flags.outputdir ++ "/sobjectFieldTypes.ts") sobjectFieldTypes]
  ++ (if flags.sobject ≠ "" ∧ flags.config ≠ "" then
        [GenEvent.stderr "Please provide only -s or -c, not both"]
      else if flags.sobject ≠ "" then
        [GenEvent.writeFile (flags.outputdir ++ "/" ++ singleFileName flags.sobject)
          (singleFileContents flags.sobject (describeOf flags.sobject))]
      else if flags.config ≠ "" then
        [GenEvent.writeFile (flags.outputdir ++ "/sobjects.ts")
          (batchDocument cfgSobjects cfgSpecial describeOf cfgSobjects)]
      else [GenEvent.stderr "Please provide a -s or -c"])

/-- The outcome sequence of the child-relationship loop, threading the clone
exactly as `processChild` does. -/
def childOutcomes (sObjects : Option (List String)) (clone : List String) :
    List ChildRelationship → List ChildOutcome
  | [] => []
  | c :: cs =>
    let o := classifyChild sObjects clone c
    o :: childOutcomes sObjects (applyClone clone o) cs

/-- The clone state seen by the `k`-th child of the loop. -/
def cloneAt (sObjects : Option (List String)) (clone : List String) :
    List ChildRelationship → Nat → List String
  | _, 0 => clone
  | [], _ + 1 => clone
  | c :: cs, k + 1 =>
    cloneAt sObjects (applyClone clone (classifyChild sObjects clone c)) cs k

/-- Entity type names referenced by the relationship property a field emits:
exactly the `referenceTo` entries that pass the membership test of line 113
(they are the members of the emitted union). -/
def fieldRefs (sObjects : Option (List String)) (f : Field) : List String :=
  if f.name = "Id" then []
  else if f.type = "reference" then f.referenceTo.filter (sObjectsFindTruthy sObjects)
  else []

/-- Entity type names referenced by the property text of one classified
child relationship. -/
def outcomeRefs : ChildOutcome → List String
  | ChildOutcome.namedKnown _ c => [c]
  | ChildOutcome.namedUnknown _ c => [c]
  | ChildOutcome.junction _ c => [c]
  | ChildOutcome.bare c _ => [c]
  | ChildOutcome.nothing => []

/-- All entity type names referenced by the properties one builder call
emits, field properties first, then child-relationship properties in loop
order. -/
def referencedEntityNames (sObjects : Option (List String)) (clone : List String)
    (d : DescribeResult) : List String :=
  (d.fields.map (fieldRefs sObjects)).flatten
    ++ ((childOutcomes sObjects clone d.childRelationships).map outcomeRefs).flatten

/-- Relationship properties (name, type expression) emitted by one builder
call in single-entity mode, where `sObjects` is `undefined`: reference-union
properties of the fields followed by child-relationship properties. -/
def singleRelationshipProps (d : DescribeResult) : List (String × String) :=
  (d.fields.filterMap (emittedRefProp none))
    ++ (childOutcomes none [] d.childRelationships).filterMap
        (fun o => match o with
          | ChildOutcome.namedKnown rel c => some (rel, c)
          | ChildOutcome.namedUnknown rel c => some (rel, c)
          | ChildOutcome.junction _ c => some (c, c)
          | ChildOutcome.bare c _ => some (c, c)
          | ChildOutcome.nothing => none)

/-- Union type expression as the specification words it: the matching target
names joined with a vertical bar. -/
def unionJoin : List String → String
  | [] => ""
  | [a] => a
  | a :: rest => a ++ " | " ++ unionJoin rest

/-- Modelled from the claim of C9 (not from the source): file name obtained
by stripping a trailing `__c` suffix and removing all underscores, then
lowercasing. -/
def claimedFileNameC9 (n : String) : String :=
  let stripped := if ("__c".data).isSuffixOf n.data then n.data.take (n.data.length - 3) else n.data
  jsToLowerCase (String.mk (stripped.filter (fun c => !(c == '_')))) ++ ".ts"

/-- Least index at which `pat` occurs inside `s`, if any (specification-side
formulation used to restate first-occurrence replacement). -/
def firstOccIdx : List Char → List Char → Option Nat
  | [], pat => if pat.isPrefixOf ([] : List Char) then some 0 else none
  | c :: rest, pat =>
    if pat.isPrefixOf (c :: rest) then some 0
    else (firstOccIdx rest pat).map (fun i => i + 1)

/-- Specification-side first-occurrence removal: cut `pat` out at its least
occurrence index. -/
def removeFirstOccSpec (s pat : List Char) : List Char :=
  match firstOccIdx s pat with
  | some i => s.take i ++ s.drop (i + pat.length)
  | none => s

/-! ### Helper lemmas -/

theorem contains_true_iff (l : List String) (x : String) : l.contains x = true ↔ x ∈ l :=
  List.elem_iff

theorem truthy_some_iff (l : List String) (r : String) :
    sObjectsFindTruthy (some l) r = true ↔ r ∈ l ∧ r ≠ "" := by
  simp [sObjectsFindTruthy, List.elem_iff]

theorem truthy_ne_empty (s : Option (List String)) (r : String)
    (h : sObjectsFindTruthy s r = true) : r ≠ "" := by
  cases s with
  | none => simp [sObjectsFindTruthy] at h
  | some l => exact ((truthy_some_iff l r).1 h).2

theorem truthy_none (r : String) : sObjectsFindTruthy none r = false := rfl

theorem truthy_mem (l : List String) (r : String)
    (h : sObjectsFindTruthy (some l) r = true) : r ∈ l :=
  ((truthy_some_iff l r).1 h).1

theorem truthy_false_of_not_mem (l : List String) (r : String) (h : r ∉ l) :
    sObjectsFindTruthy (some l) r = false := by
  cases hc : sObjectsFindTruthy (some l) r with
  | false => rfl
  | true => exact absurd (truthy_mem l r hc) h

theorem mem_setAdd_self (u : List String) (x : String) : x ∈ setAdd u x := by
  unfold setAdd
  split
  · exact (contains_true_iff u x).1 (by assumption)
  · exact List.mem_append_right u (List.mem_singleton.2 rfl)

theorem mem_setAdd_of_mem (u : List String) (x y : String) (h : x ∈ u) : x ∈ setAdd u y := by
  unfold setAdd
  split
  · exact h
  · exact List.mem_append_left _ h

theorem mem_setAdd_iff (u : List String) (x y : String) :
    x ∈ setAdd u y ↔ x ∈ u ∨ x = y := by
  unfold setAdd
  split
  · rename_i hc
    constructor
    · exact Or.inl
    · intro h
      rcases h with h | h
      · exact h
      · exact h ▸ (contains_true_iff u y).1 hc
  · simp [List.mem_append]

theorem nodup_setAdd (u : List String) (y : String) (h : u.Nodup) : (setAdd u y).Nodup := by
  unfold setAdd
  split
  · exact h
  · rename_i hc
    have hy : y ∉ u := fun hm => hc ((contains_true_iff u y).2 hm)
    simp [List.nodup_append, h, hy]

theorem unionJoin_cons_cons (a b : String) (l : List String) :
    unionJoin (a :: b :: l) = a ++ " | " ++ unionJoin (b :: l) := rfl

theorem append_bar_ne_empty (a r : String) : ¬ a ++ " | " ++ r = "" := by
  intro h
  have hl := congrArg String.length h
  have h3 : (" | " : String).length = 3 := rfl
  have h0 : ("" : String).length = 0 := rfl
  rw [String.length_append, String.length_append, h3, h0] at hl
  omega

theorem unionJoin_ne_empty (l : List String) (h : ∀ x ∈ l, x ≠ "") (hne : l ≠ []) :
    unionJoin l ≠ "" := by
  match l with
  | [] => exact absurd rfl hne
  | [a] => exact h a (List.mem_singleton.2 rfl)
  | a :: b :: rest => exact append_bar_ne_empty a (unionJoin (b :: rest))

theorem refFold_go (s : Option (List String)) (l : List String) :
    ∀ acc : String, acc ≠ "" →
      l.foldl (refStep s) acc =
        (if (l.filter (sObjectsFindTruthy s)).isEmpty then acc
         else acc ++ " | " ++ unionJoin (l.filter (sObjectsFindTruthy s))) := by
  induction l with
  | nil => intro acc _; simp
  | cons r rs ih =>
    intro acc hacc
    by_cases hp : sObjectsFindTruthy s r = true
    · have step : refStep s acc r = acc ++ " | " ++ r := by
        simp [refStep, hp, hacc]
      have ih2 := ih (acc ++ " | " ++ r) (append_bar_ne_empty acc r)
      rw [List.foldl_cons, step, ih2]
      rw [List.filter_cons_of_pos hp]
      cases hfs : rs.filter (sObjectsFindTruthy s) with
      | nil => simp [unionJoin]
      | cons b bs => simp [unionJoin_cons_cons, String.append_assoc]
    · have hp2 : sObjectsFindTruthy s r = false := by
        cases hb : sObjectsFindTruthy s r
        · rfl
        · exact absurd hb hp
      have step : refStep s acc r = acc := by simp [refStep, hp2]
      rw [List.foldl_cons, step, ih acc hacc, List.filter_cons_of_neg (by simp [hp2])]

theorem refTypeNameFold_eq (s : Option (List String)) (l : List String) :
    refTypeNameFold s l = unionJoin (l.filter (sObjectsFindTruthy s)) := by
  unfold refTypeNameFold
  induction l with
  | nil => rfl
  | cons r rs ih =>
    by_cases hp : sObjectsFindTruthy s r = true
    · have step : refStep s "" r = r := by simp [refStep, hp]
      rw [List.foldl_cons, step, List.filter_cons_of_pos hp]
      have hr : r ≠ "" := truthy_ne_empty s r hp
      rw [refFold_go s rs r hr]
      cases hfs : rs.filter (sObjectsFindTruthy s) with
      | nil => simp [unionJoin]
      | cons b bs => simp [unionJoin_cons_cons]
    · have hp2 : sObjectsFindTruthy s r = false := by
        cases hb : sObjectsFindTruthy s r
        · rfl
        · exact absurd hb hp
      have step : refStep s "" r = "" := by simp [refStep, hp2]
      rw [List.foldl_cons, step, List.filter_cons_of_neg (by simp [hp2])]
      exact ih

theorem filter_truthy_ne_empty (s : Option (List String)) (l : List String) :
    ∀ x ∈ l.filter (sObjectsFindTruthy s), x ≠ "" := by
  intro x hx
  exact truthy_ne_empty s x (List.of_mem_filter hx)

theorem emittedRefProp_eq (s : Option (List String)) (f : Field) (hf : f.type = "reference") :
    emittedRefProp s f =
      (if (f.referenceTo.filter (sObjectsFindTruthy s)).isEmpty then none
       else some (f.relationshipName, unionJoin (f.referenceTo.filter (sObjectsFindTruthy s)))) := by
  unfold emittedRefProp
  rw [hf]
  simp only [if_pos rfl, refTypeNameFold_eq]
  cases hfs : f.referenceTo.filter (sObjectsFindTruthy s) with
  | nil => simp [unionJoin]
  | cons b bs =>
    have hne : unionJoin (b :: bs) ≠ "" := by
      refine unionJoin_ne_empty (b :: bs) ?_ (by simp)
      rw [← hfs]
      exact filter_truthy_ne_empty s f.referenceTo
    simp [hne]

theorem refTypeNameFold_none (l : List String) : refTypeNameFold none l = "" := by
  rw [refTypeNameFold_eq]
  have : l.filter (sObjectsFindTruthy none) = [] := by
    simp [List.filter_eq_nil_iff, sObjectsFindTruthy]
  rw [this]
  rfl

theorem emittedRefProp_none (f : Field) : emittedRefProp none f = none := by
  unfold emittedRefProp
  split
  · simp [refTypeNameFold_none]
  · rfl

theorem processChild_eq (s : Option (List String)) (st : ChildState) (c : ChildRelationship) :
    processChild s st c =
      { contents := st.contents ++ outcomeText (classifyChild s st.clone c)
        unmapped := applyUnmapped st.unmapped (classifyChild s st.clone c)
        clone := applyClone st.clone (classifyChild s st.clone c) } := rfl

theorem foldl_processChild_unmapped (s : Option (List String)) :
    ∀ (children : List ChildRelationship) (st : ChildState),
      (children.foldl (processChild s) st).unmapped =
        (childOutcomes s st.clone children).foldl applyUnmapped st.unmapped := by
  intro children
  induction children with
  | nil => intro st; rfl
  | cons c cs ih =>
    intro st
    rw [List.foldl_cons, ih (processChild s st c)]
    rfl

theorem mem_foldl_applyUnmapped_mono :
    ∀ (outs : List ChildOutcome) (u : List String) (x : String),
      x ∈ u → x ∈ outs.foldl applyUnmapped u := by
  intro outs
  induction outs with
  | nil => intro u x h; exact h
  | cons o os ih =>
    intro u x h
    rw [List.foldl_cons]
    refine ih (applyUnmapped u o) x ?_
    cases o with
    | namedUnknown rel c => exact mem_setAdd_of_mem u x c h
    | namedKnown rel c => exact h
    | junction js c => exact h
    | bare c i => exact h
    | nothing => exact h

theorem mem_foldl_applyUnmapped_of_mem :
    ∀ (outs : List ChildOutcome) (u : List String) (rel x : String),
      ChildOutcome.namedUnknown rel x ∈ outs → x ∈ outs.foldl applyUnmapped u := by
  intro outs
  induction outs with
  | nil => intro u rel x h; exact absurd h (List.not_mem_nil _)
  | cons o os ih =>
    intro u rel x h
    rw [List.foldl_cons]
    rcases List.mem_cons.1 h with h | h
    · subst h
      exact mem_foldl_applyUnmapped_mono os _ x (mem_setAdd_self u x)
    · exact ih (applyUnmapped u o) rel x h

theorem nodup_foldl_applyUnmapped :
    ∀ (outs : List ChildOutcome) (u : List String),
      u.Nodup → (outs.foldl applyUnmapped u).Nodup := by
  intro outs
  induction outs with
  | nil => intro u h; exact h
  | cons o os ih =>
    intro u h
    rw [List.foldl_cons]
    refine ih (applyUnmapped u o) ?_
    cases o with
    | namedUnknown rel c => exact nodup_setAdd u c h
    | namedKnown rel c => exact h
    | junction js c => exact h
    | bare c i => exact h
    | nothing => exact h

theorem classify_not_truthy (s : Option (List String)) (clone : List String)
    (c : ChildRelationship) (ht : sObjectsFindTruthy s c.childSObject = false)
    (hr : c.relationshipName ≠ "") :
    classifyChild s clone c = ChildOutcome.namedUnknown c.relationshipName c.childSObject := by
  unfold classifyChild
  rw [ht]
  simp [hr]

theorem childOutcomes_mem_inv (s : Option (List String)) :
    ∀ (children : List ChildRelationship) (clone : List String) (o : ChildOutcome),
      o ∈ childOutcomes s clone children →
      ∃ clone2 c, c ∈ children ∧ o = classifyChild s clone2 c := by
  intro children
  induction children with
  | nil => intro clone o h; exact absurd h (List.not_mem_nil _)
  | cons c cs ih =>
    intro clone o h
    rw [childOutcomes] at h
    rcases List.mem_cons.1 h with h | h
    · exact ⟨clone, c, List.mem_cons_self c cs, h⟩
    · rcases ih _ o h with ⟨clone2, c2, hc2, ho⟩
      exact ⟨clone2, c2, List.mem_cons_of_mem c hc2, ho⟩

theorem outcomeRefs_classify (so clone : List String) (c : ChildRelationship) (x : String)
    (h : x ∈ outcomeRefs (classifyChild (some so) clone c)) :
    x ∈ so ∨ classifyChild (some so) clone c =
      ChildOutcome.namedUnknown c.relationshipName c.childSObject ∧ x = c.childSObject := by
  by_cases ht : sObjectsFindTruthy (some so) c.childSObject = true
  · left
    have hmem := truthy_mem so c.childSObject ht
    unfold classifyChild at h
    rw [if_pos ht] at h
    by_cases hr : c.relationshipName = ""
    · rw [if_pos hr] at h
      by_cases hj : c.junctionReferenceTo.length > 0
      · rw [if_pos hj] at h
        simp [outcomeRefs] at h
        exact h ▸ hmem
      · rw [if_neg hj] at h
        by_cases hi : jsFindIndex clone c.childSObject > 0
        · rw [if_pos hi] at h
          simp [outcomeRefs] at h
          exact h ▸ hmem
        · rw [if_neg hi] at h
          simp [outcomeRefs] at h
    · rw [if_neg hr] at h
      simp [outcomeRefs] at h
      exact h ▸ hmem
  · have ht2 : sObjectsFindTruthy (some so) c.childSObject = false := by
      cases hb : sObjectsFindTruthy (some so) c.childSObject
      · rfl
      · exact absurd hb ht
    by_cases hr : c.relationshipName = ""
    · unfold classifyChild at h
      simp [ht2, hr, outcomeRefs] at h
    · have hcl : classifyChild (some so) clone c =
          ChildOutcome.namedUnknown c.relationshipName c.childSObject :=
        classify_not_truthy (some so) clone c ht2 hr
      rw [hcl] at h
      simp [outcomeRefs] at h
      exact Or.inr ⟨hcl, h⟩

theorem builder_unmapped_eq (n : String) (d : DescribeResult) (s : Option (List String))
    (sp : Option (List String)) (u0 : List String) :
    (generateSObjectTypeContents n d s sp u0).2 =
      (childOutcomes s (sp.getD []) d.childRelationships).foldl applyUnmapped u0 :=
  foldl_processChild_unmapped s d.childRelationships _

theorem batchStep_mono (so sp : List String) (dOf : String → DescribeResult)
    (u : List String) (s x : String) (h : x ∈ u) : x ∈ batchStep so sp dOf u s := by
  unfold batchStep
  rw [builder_unmapped_eq]
  exact mem_foldl_applyUnmapped_mono _ _ _ h

theorem batchStep_mem (so sp : List String) (dOf : String → DescribeResult)
    (u : List String) (s rel x : String)
    (h : ChildOutcome.namedUnknown rel x ∈
      childOutcomes (some so) sp (dOf s).childRelationships) :
    x ∈ batchStep so sp dOf u s := by
  unfold batchStep
  rw [builder_unmapped_eq]
  exact mem_foldl_applyUnmapped_of_mem _ _ rel x h

theorem batchStep_nodup (so sp : List String) (dOf : String → DescribeResult)
    (u : List String) (s : String) (h : u.Nodup) : (batchStep so sp dOf u s).Nodup := by
  unfold batchStep
  rw [builder_unmapped_eq]
  exact nodup_foldl_applyUnmapped _ _ h

theorem foldl_batchStep_mono (so sp : List String) (dOf : String → DescribeResult) :
    ∀ (completion : List String) (acc : List String) (x : String),
      x ∈ acc → x ∈ completion.foldl (batchStep so sp dOf) acc := by
  intro completion
  induction completion with
  | nil => intro acc x h; exact h
  | cons s ss ih =>
    intro acc x h
    rw [List.foldl_cons]
    exact ih _ x (batchStep_mono so sp dOf acc s x h)

theorem foldl_batchStep_mem (so sp : List String) (dOf : String → DescribeResult) :
    ∀ (completion : List String) (acc : List String) (s rel x : String),
      s ∈ completion →
      ChildOutcome.namedUnknown rel x ∈
        childOutcomes (some so) sp (dOf s).childRelationships →
      x ∈ completion.foldl (batchStep so sp dOf) acc := by
  intro completion
  induction completion with
  | nil => intro acc s rel x h _; exact absurd h (List.not_mem_nil _)
  | cons t ts ih =>
    intro acc s rel x h ho
    rw [List.foldl_cons]
    rcases List.mem_cons.1 h with h | h
    · subst h
      exact foldl_batchStep_mono so sp dOf ts _ x (batchStep_mem so sp dOf acc s rel x ho)
    · exact ih _ s rel x h ho

theorem foldl_batchStep_nodup (so sp : List String) (dOf : String → DescribeResult) :
    ∀ (completion : List String) (acc : List String),
      acc.Nodup → (completion.foldl (batchStep so sp dOf) acc).Nodup := by
  intro completion
  induction completion with
  | nil => intro acc h; exact h
  | cons t ts ih =>
    intro acc h
    rw [List.foldl_cons]
    exact ih _ (batchStep_nodup so sp dOf acc t h)

theorem batchUnmapped_nodup (so sp : List String) (dOf : String → DescribeResult)
    (completion : List String) : (batchUnmapped so sp dOf completion).Nodup :=
  foldl_batchStep_nodup so sp dOf completion [] List.nodup_nil

theorem batchStubList_perm (so sp : List String) (dOf : String → DescribeResult)
    (completion : List String) :
    List.Perm (batchStubList so sp dOf completion) (batchUnmapped so sp dOf completion) :=
  List.perm_insertionSort _ _

theorem batchStubList_sorted (so sp : List String) (dOf : String → DescribeResult)
    (completion : List String) :
    List.Sorted jsStrLe (batchStubList so sp dOf completion) :=
  List.sorted_insertionSort _ _

theorem batchStubList_count_one (so sp : List String) (dOf : String → DescribeResult)
    (completion : List String) (x : String) (h : x ∈ batchUnmapped so sp dOf completion) :
    (batchStubList so sp dOf completion).count x = 1 := by
  rw [(batchStubList_perm so sp dOf completion).count_eq]
  exact List.count_eq_one_of_mem (batchUnmapped_nodup so sp dOf completion) h

theorem mem_batchStubList (so sp : List String) (dOf : String → DescribeResult)
    (completion : List String) (x : String) (h : x ∈ batchUnmapped so sp dOf completion) :
    x ∈ batchStubList so sp dOf completion :=
  ((batchStubList_perm so sp dOf completion).mem_iff).2 h

theorem childOutcomes_getElem? (s : Option (List String)) :
    ∀ (children : List ChildRelationship) (clone : List String) (k : Nat),
      (childOutcomes s clone children)[k]? =
        (children[k]?).map (fun c => classifyChild s (cloneAt s clone children k) c) := by
  intro children
  induction children with
  | nil =>
    intro clone k
    cases k <;> rfl
  | cons c cs ih =>
    intro clone k
    cases k with
    | zero =>
      rw [childOutcomes]
      simp [cloneAt]
    | succ k =>
      rw [childOutcomes]
      simp only [List.getElem?_cons_succ]
      rw [ih]
      rfl

theorem removeFirstOccSpec_eq_none (s pat : List Char) (h : firstOccIdx s pat = none) :
    removeFirstOccSpec s pat = s := by
  unfold removeFirstOccSpec
  rw [h]

theorem removeFirstOccSpec_eq_some (s pat : List Char) (i : Nat)
    (h : firstOccIdx s pat = some i) :
    removeFirstOccSpec s pat = s.take i ++ s.drop (i + pat.length) := by
  unfold removeFirstOccSpec
  rw [h]

theorem jsReplaceFirstList_eq_spec :
    ∀ s pat : List Char, jsReplaceFirstList s pat = removeFirstOccSpec s pat := by
  intro s
  induction s with
  | nil =>
    intro pat
    unfold jsReplaceFirstList removeFirstOccSpec firstOccIdx
    by_cases hp : pat.isPrefixOf ([] : List Char) = true
    · rw [if_pos hp]
      have : pat = [] := by
        cases pat with
        | nil => rfl
        | cons a as => simp [List.isPrefixOf] at hp
      subst this
      rfl
    · rw [if_neg hp]
  | cons c rest ih =>
    intro pat
    unfold jsReplaceFirstList
    by_cases hp : pat.isPrefixOf (c :: rest) = true
    · rw [if_pos hp]
      unfold removeFirstOccSpec firstOccIdx
      rw [if_pos hp]
      simp
    · rw [if_neg hp, ih pat]
      cases hfo : firstOccIdx rest pat with
      | none =>
        have h2 : firstOccIdx (c :: rest) pat = none := by
          rw [firstOccIdx, if_neg hp, hfo]
          rfl
        rw [removeFirstOccSpec_eq_none rest pat hfo,
          removeFirstOccSpec_eq_none (c :: rest) pat h2]
      | some i =>
        have h2 : firstOccIdx (c :: rest) pat = some (i + 1) := by
          rw [firstOccIdx, if_neg hp, hfo]
          rfl
        rw [removeFirstOccSpec_eq_some rest pat i hfo,
          removeFirstOccSpec_eq_some (c :: rest) pat (i + 1) h2]
        have hidx : i + 1 + pat.length = (i + pat.length) + 1 := by omega
        rw [hidx, List.drop_succ_cons, List.take_succ_cons, List.cons_append]

theorem mem_childOutcomes (s : Option (List String)) (c : ChildRelationship) (o : ChildOutcome)
    (hcl : ∀ clone2 : List String, classifyChild s clone2 c = o) :
    ∀ (children : List ChildRelationship) (clone : List String),
      c ∈ children → o ∈ childOutcomes s clone children := by
  intro children
  induction children with
  | nil => intro clone h; exact absurd h (List.not_mem_nil _)
  | cons d ds ih =>
    intro clone h
    rw [childOutcomes]
    rcases List.mem_cons.1 h with h | h
    · subst h
      rw [hcl clone]
      exact List.mem_cons_self _ _
    · exact List.mem_cons_of_mem _ (ih _ h)

theorem append_ID (x : String) : x ++ ": " ++ "ID" ++ ";" = x ++ ": ID;" := by
  have h : (": " : String) ++ ("ID" ++ ";") = ": ID;" := by decide
  rw [String.append_assoc, String.append_assoc, h]

/-! ### Claim theorems -/

/-- C1: for every field, the scalar type mapping is total and returns exactly
the specified target expression — `boolean ↦ boolean`; `int`, `double`,
`currency ↦ number`; `date`, `datetime ↦ DateString | null`;
`phone ↦ PhoneString`; `string`, `textarea ↦ string`; `reference ↦ ID`; and
any other tag yields `string` annotated with the original tag as a comment,
never an error. -/
theorem C1_scalar_mapping :
    scalarTypeName "boolean" = "boolean" ∧
    scalarTypeName "int" = "number" ∧
    scalarTypeName "double" = "number" ∧
    scalarTypeName "currency" = "number" ∧
    scalarTypeName "date" = "DateString | null" ∧
    scalarTypeName "datetime" = "DateString | null" ∧
    scalarTypeName "phone" = "PhoneString" ∧
    scalarTypeName "string" = "string" ∧
    scalarTypeName "textarea" = "string" ∧
    scalarTypeName "reference" = "ID" ∧
    (∀ t : String,
      t ∉ (["boolean", "int", "double", "currency", "date", "datetime", "phone",
        "string", "textarea", "reference"] : List String) →
      scalarTypeName t = "string //" ++ t) := by
  refine ⟨rfl, rfl, rfl, rfl, rfl, rfl, rfl, rfl, rfl, rfl, ?_⟩
  intro t ht
  simp only [List.mem_cons, List.not_mem_nil, or_false, not_or] at ht
  obtain ⟨h1, h2, h3, h4, h5, h6, h7, h8, h9, h10⟩ := ht
  simp [scalarTypeName, h1, h2, h3, h4, h5, h6, h7, h8, h9, h10]

/-- C1 witness: the unknown tag `picklist` is outside the mapping table and
falls back to the annotated string. -/
theorem C1_scalar_mapping_witness :
    ("picklist" : String) ∉ (["boolean", "int", "double", "currency", "date", "datetime",
      "phone", "string", "textarea", "reference"] : List String) ∧
    scalarTypeName "picklist" = "string //picklist" :=
  ⟨by decide, C1_scalar_mapping.2.2.2.2.2.2.2.2.2.2 "picklist" (by decide)⟩

/-- C2 counterexample: for the reference field
`⟨name Acct, type reference, referenceTargets [""], relationshipName Rel⟩`
and known entity set `[""]`, exactly one target (the empty name) is present
in the known set, so the claim requires a relationship property typed as that
singleton; the code emits no relationship property at all, because
`sObjects.find(f => f === r)` returns the matched element `""`, which is
falsy.  Only the scalar `ID` property appears. -/
theorem C2_counterexample :
    (("" : String) ∈ ([""] : List String)) ∧
    emittedRefProp (some [""]) ⟨"Acct", "reference", false, [""], "Rel"⟩ = none ∧
    fieldContents (some [""]) ⟨"Acct", "reference", false, [""], "Rel"⟩ = "\n  Acct: ID;" :=
  ⟨by decide, by decide, by decide⟩

/-- C2 amended: for every reference field with a non-empty relationshipName
(and a name other than the skipped `Id`), the emitted relationship property
type is the union of exactly those names in `referenceTargets` that are
non-empty and present in the known entity set, joined in target order; when
no such target exists no relationship property is emitted, while the scalar
`ID` property for the field is always emitted. -/
theorem C2_amended_reference_union :
    ∀ (known : List String) (f : Field),
      f.type = "reference" → f.relationshipName ≠ "" → f.name ≠ "Id" →
      emittedRefProp (some known) f =
        (if (f.referenceTo.filter (sObjectsFindTruthy (some known))).isEmpty then none
         else some (f.relationshipName,
            unionJoin (f.referenceTo.filter (sObjectsFindTruthy (some known))))) ∧
      fieldContents (some known) f =
        "\n  " ++ f.name ++ ": ID;"
          ++ (if f.calculated then " //calculated" else "")
          ++ (match emittedRefProp (some known) f with
              | some p => "\n  " ++ p.1 ++ ": " ++ p.2 ++ ";"
              | none => "") := by
  intro known f hf hr hn
  refine ⟨emittedRefProp_eq (some known) f hf, ?_⟩
  unfold fieldContents
  rw [if_neg hn, hf]
  have hsc : scalarTypeName "reference" = "ID" := by decide
  rw [hsc, append_ID ("\n  " ++ f.name)]

/-- C2 amended, witness: `referenceTargets = ["A", "B"]` with
`knownEntities = ["A"]` resolves to the singleton `A` and the block carries
both the scalar and the relationship property. -/
theorem C2_amended_reference_union_witness :
    emittedRefProp (some ["A"]) ⟨"AcctId", "reference", false, ["A", "B"], "Rel"⟩ =
      some ("Rel", "A") ∧
    fieldContents (some ["A"]) ⟨"AcctId", "reference", false, ["A", "B"], "Rel"⟩ =
      "\n  AcctId: ID;\n  Rel: A;" := by
  have h := C2_amended_reference_union ["A"] ⟨"AcctId", "reference", false, ["A", "B"], "Rel"⟩
    rfl (by decide) (by decide)
  exact ⟨h.1.trans (by decide), h.2.trans (by decide)⟩

/-- C4 counterexample, two failure modes of the claimed iff.  First: with
allow-list `["A", "B"]` and known set `["B"]`, both (identical) unnamed,
non-junction children named `B` qualify and `B` occurs at index `1 > 0` of
the caller-supplied allow-list; per the claim both should emit a bare
property, but the first match splices `B` out of the clone, so the second
child emits nothing.  Second: the child entity `""` is a member of the known
set `[""]` and sits at index `1 > 0` of the allow-list clone `["A", ""]`,
yet no bare property is emitted, because the line 126 membership test
`sObjects.find(f => f === childSObject)` returns the falsy matched element
`""`. -/
theorem C4_counterexample :
    childOutcomes (some ["B"]) ["A", "B"] [⟨"B", "", []⟩, ⟨"B", "", []⟩] =
      [ChildOutcome.bare "B" 1, ChildOutcome.nothing] ∧
    jsFindIndex ["A", "B"] "B" = 1 ∧
    sObjectsFindTruthy (some ["B"]) "B" = true ∧
    (("" : String) ∈ ([""] : List String)) ∧
    jsFindIndex ["A", ""] "" = 1 ∧
    childOutcomes (some [""]) ["A", ""] [⟨"", "", []⟩] = [ChildOutcome.nothing] :=
  ⟨by decide, by decide, by decide, by decide, by decide, by decide⟩

/-- C4 amended: for every unnamed, non-junction child relationship whose
child entity name is non-empty and present in the known entity set (the
line 126 find test), a bare singular property is emitted if and only if the
name occurs at an index strictly greater than 0 of the *remaining*
allow-list clone at that point (the caller's list minus entries consumed by
earlier matches of the same builder call); each positive-index match
consumes its entry, and an index-0 match emits nothing.  When that test
fails — the child entity name is empty or absent from the known set — no
bare property is emitted regardless of the allow-list (second conjunct). -/
theorem C4_amended_allowlist :
    (∀ (sObjects : Option (List String)) (clone : List String)
      (children : List ChildRelationship) (k : Nat) (c : ChildRelationship),
      children[k]? = some c →
      c.relationshipName = "" → c.junctionReferenceTo = [] →
      sObjectsFindTruthy sObjects c.childSObject = true →
      (childOutcomes sObjects clone children)[k]? =
        some (if jsFindIndex (cloneAt sObjects clone children k) c.childSObject > 0
              then ChildOutcome.bare c.childSObject
                (jsFindIndex (cloneAt sObjects clone children k) c.childSObject).toNat
              else ChildOutcome.nothing)) ∧
    (∀ (sObjects : Option (List String)) (clone : List String)
      (children : List ChildRelationship) (k : Nat) (c : ChildRelationship),
      children[k]? = some c →
      c.relationshipName = "" →
      sObjectsFindTruthy sObjects c.childSObject = false →
      (childOutcomes sObjects clone children)[k]? = some ChildOutcome.nothing) := by
  constructor
  · intro sObjects clone children k c hk hr hj ht
    rw [childOutcomes_getElem? sObjects children clone k, hk]
    show some (classifyChild sObjects (cloneAt sObjects clone children k) c) = _
    unfold classifyChild
    rw [if_pos ht, if_pos hr, hj]
    simp
  · intro sObjects clone children k c hk hr ht
    rw [childOutcomes_getElem? sObjects children clone k, hk]
    show some (classifyChild sObjects (cloneAt sObjects clone children k) c) = _
    unfold classifyChild
    rw [ht]
    simp [hr]

/-- C4 amended, witness: a qualifying child `B` against clone `["A", "B"]`
matches at index 1 and emits the bare property; the child `""` against known
set `[""]` and clone `["A", ""]` fails the find test and emits nothing. -/
theorem C4_amended_allowlist_witness :
    (childOutcomes (some ["B"]) ["A", "B"] [⟨"B", "", []⟩])[0]? =
      some (ChildOutcome.bare "B" 1) ∧
    (childOutcomes (some [""]) ["A", ""] [⟨"", "", []⟩])[0]? = some ChildOutcome.nothing := by
  constructor
  · have h := C4_amended_allowlist.1 (some ["B"]) ["A", "B"] [⟨"B", "", []⟩] 0 ⟨"B", "", []⟩
      (by decide) rfl rfl (by decide)
    exact h.trans (by decide)
  · exact C4_amended_allowlist.2 (some [""]) ["A", ""] [⟨"", "", []⟩] 0 ⟨"", "", []⟩
      (by decide) rfl (by decide)

/-- C6 counterexample: in single-entity mode (`sObjects` undefined) the
entity `X` with one named child relationship `Kids → Kid` still gets the
child-records relationship property in its generated block, refuting "the
generated block contains no relationship property". -/
theorem C6_counterexample :
    singleRelationshipProps ⟨[], [⟨"Kid", "Kids", []⟩]⟩ = [("Kids", "Kid")] ∧
    (singleRelationshipProps ⟨[], [⟨"Kid", "Kids", []⟩]⟩).isEmpty = false ∧
    singleFileContents "X" ⟨[], [⟨"Kid", "Kids", []⟩]⟩ =
      "\n\nexport interface X extends SObjectAttribute<\x27X\x27> \x7b\n  Kids: ChildRecords<Kid, \x27Kid\x27>;\n\x7d;\n" :=
  ⟨by decide, by decide, by decide⟩

/-- C6 amended: in single-entity mode, reference fields emit no relationship
property and junction / bare allow-list properties are suppressed, but every
child relationship with a (truthy) relationshipName still emits its
child-records collection property and is classified as an unmapped named
child. -/
theorem C6_amended_single_mode :
    (∀ f : Field, emittedRefProp none f = none) ∧
    (∀ (clone : List String) (children : List ChildRelationship),
      childOutcomes none clone children =
        children.map (fun c =>
          if c.relationshipName = "" then ChildOutcome.nothing
          else ChildOutcome.namedUnknown c.relationshipName c.childSObject)) := by
  constructor
  · exact emittedRefProp_none
  · intro clone children
    induction children generalizing clone with
    | nil => rfl
    | cons c cs ih =>
      rw [childOutcomes, List.map_cons]
      have hcl : classifyChild none clone c =
          (if c.relationshipName = "" then ChildOutcome.nothing
           else ChildOutcome.namedUnknown c.relationshipName c.childSObject) := by
        unfold classifyChild
        rw [truthy_none]
        simp
      rw [hcl]
      by_cases hr : c.relationshipName = ""
      · simp only [if_pos hr, applyClone]
        exact congrArg _ (ih clone)
      · simp only [if_neg hr, applyClone]
        exact congrArg _ (ih clone)

set_option maxRecDepth 40000 in
/-- C7: evaluation of the batch assembler at a concrete failing input.  The
claim says the assembled document contains the entity blocks in input order;
line 221 instead concatenates the pending promise objects, which JS coerces
to the text `[object Promise]`, so neither block reaches the document (the
third conjunct shows the block the claim expects for `X`).  Completion order
still never affects the output (second conjunct): the only completion-order
dependent state is the unmapped set, and its stub section is sorted. -/
theorem C7_promise_coercion_eval :
    batchDocument ["X", "Y"] []
        (fun s => if s = "X" then ⟨[⟨"Name", "string", false, [], ""⟩], [⟨"Zed", "Zeds", []⟩]⟩
                  else ⟨[], [⟨"Kid", "Kids", []⟩]⟩) ["X", "Y"] =
      generateFileHeader ++ "[object Promise]" ++ "[object Promise]"
        ++ "\n// unmapped types:" ++ "\ntype Kid = any; " ++ "\ntype Zed = any; " ∧
    batchDocument ["X", "Y"] []
        (fun s => if s = "X" then ⟨[⟨"Name", "string", false, [], ""⟩], [⟨"Zed", "Zeds", []⟩]⟩
                  else ⟨[], [⟨"Kid", "Kids", []⟩]⟩) ["Y", "X"] =
      batchDocument ["X", "Y"] []
        (fun s => if s = "X" then ⟨[⟨"Name", "string", false, [], ""⟩], [⟨"Zed", "Zeds", []⟩]⟩
                  else ⟨[], [⟨"Kid", "Kids", []⟩]⟩) ["X", "Y"] ∧
    (generateSObjectTypeContents "X" ⟨[⟨"Name", "string", false, [], ""⟩], [⟨"Zed", "Zeds", []⟩]⟩
        (some ["X", "Y"]) (some []) []).1 =
      "\n\nexport interface X extends SObjectAttribute<\x27X\x27> \x7b\n  Name: string;\n  Zeds: ChildRecords<Zed, \x27Zed\x27>;\n\x7d;\n" :=
  ⟨by decide, by decide, by decide⟩

/-- C9 counterexample: for the entity name `A_B_C__c`, the code produces
`ab_c.ts` (only the first `__c` occurrence and the first underscore are
removed by `replace`), while the claimed normalization (trailing `__c`
suffix and *all* underscores stripped) gives `abc.ts`. -/
theorem C9_counterexample :
    singleFileName "A_B_C__c" = "ab_c.ts" ∧
    claimedFileNameC9 "A_B_C__c" = "abc.ts" ∧
    (singleFileName "A_B_C__c" == claimedFileNameC9 "A_B_C__c") = false :=
  ⟨by decide, by decide, by decide⟩

/-- C9 amended: the single-mode file name is the lowercase form of the
entity name with the first occurrence of the substring `__c` removed and
then the first remaining underscore removed, suffixed with `.ts`
(first-occurrence removal stated via the least occurrence index). -/
theorem C9_amended_filename :
    ∀ n : String,
      singleFileName n =
        jsToLowerCase (String.mk
          (removeFirstOccSpec (removeFirstOccSpec n.data ("__c".data)) ("_".data))) ++ ".ts" := by
  intro n
  unfold singleFileName pascalObjectName jsReplaceFirst
  rw [jsReplaceFirstList_eq_spec, jsReplaceFirstList_eq_spec]

/-- C3: every child relationship with a (truthy) relationshipName whose
child entity is not in the known entity set makes the builder emit the
child-records property named by the relationshipName and insert the child
entity name into the unmapped set; after a full batch run that name appears
exactly once in the final stub list however many entities referenced it, the
stub list is lexicographically sorted, and each member is emitted as a
`type X = any; ` stub line of the document. -/
theorem C3_named_unknown_stubs :
    (∀ (sobjects : List String) (st : ChildState) (c : ChildRelationship),
      c.relationshipName ≠ "" → c.childSObject ∉ sobjects →
      processChild (some sobjects) st c =
        { contents := st.contents ++
            ("\n  " ++ c.relationshipName ++ ": ChildRecords<" ++ c.childSObject
              ++ ", \x27" ++ c.childSObject ++ "\x27>;")
          unmapped := setAdd st.unmapped c.childSObject
          clone := st.clone }) ∧
    (∀ (sobjects special completion : List String) (dOf : String → DescribeResult)
      (s : String) (c : ChildRelationship),
      s ∈ completion → c ∈ (dOf s).childRelationships →
      c.relationshipName ≠ "" → c.childSObject ∉ sobjects →
      (batchStubList sobjects special dOf completion).count c.childSObject = 1) ∧
    (∀ (sobjects special completion : List String) (dOf : String → DescribeResult),
      List.Sorted jsStrLe (batchStubList sobjects special dOf completion)) ∧
    (∀ (sobjects special completion : List String) (dOf : String → DescribeResult),
      batchDocument sobjects special dOf completion =
        generateFileHeader ++ String.join (sobjects.map (fun _ => "[object Promise]"))
          ++ "\n// unmapped types:"
          ++ String.join ((batchStubList sobjects special dOf completion).map stubLine)) := by
  have hout : ∀ (sobjects special : List String) (dOf : String → DescribeResult)
      (s : String) (c : ChildRelationship),
      c ∈ (dOf s).childRelationships → c.relationshipName ≠ "" → c.childSObject ∉ sobjects →
      ChildOutcome.namedUnknown c.relationshipName c.childSObject ∈
        childOutcomes (some sobjects) special (dOf s).childRelationships := by
    intro sobjects special dOf s c hc hr hm
    refine mem_childOutcomes (some sobjects) c _ ?_ (dOf s).childRelationships special hc
    intro clone2
    exact classify_not_truthy (some sobjects) clone2 c
      (truthy_false_of_not_mem sobjects c.childSObject hm) hr
  refine ⟨?_, ?_, ?_, ?_⟩
  · intro sobjects st c hr hm
    have ht : sObjectsFindTruthy (some sobjects) c.childSObject = false :=
      truthy_false_of_not_mem sobjects c.childSObject hm
    rw [processChild_eq, classify_not_truthy (some sobjects) st.clone c ht hr]
    rfl
  · intro sobjects special completion dOf s c hs hc hr hm
    have hmem : c.childSObject ∈ batchUnmapped sobjects special dOf completion :=
      foldl_batchStep_mem sobjects special dOf completion [] s c.relationshipName c.childSObject
        hs (hout sobjects special dOf s c hc hr hm)
    exact batchStubList_count_one sobjects special dOf completion c.childSObject hmem
  · intro sobjects special completion dOf
    exact batchStubList_sorted sobjects special dOf completion
  · intro sobjects special completion dOf
    rfl

/-- C3 witness: the single named child `Kids → Kid` of the only entity `X`
(with `Kid` outside the known set `["X"]`) emits the child-records property,
inserts `Kid`, and yields exactly one `Kid` stub after the batch run. -/
theorem C3_named_unknown_stubs_witness :
    processChild (some ["X"]) ⟨"", [], []⟩ ⟨"Kid", "Kids", []⟩ =
      ⟨"\n  Kids: ChildRecords<Kid, \x27Kid\x27>;", ["Kid"], []⟩ ∧
    (batchStubList ["X"] [] (fun _ => ⟨[], [⟨"Kid", "Kids", []⟩]⟩) ["X"]).count "Kid" = 1 := by
  constructor
  · exact (C3_named_unknown_stubs.1 ["X"] ⟨"", [], []⟩ ⟨"Kid", "Kids", []⟩
      (by decide) (by decide)).trans (by decide)
  · exact C3_named_unknown_stubs.2.1 ["X"] [] ["X"] (fun _ => ⟨[], [⟨"Kid", "Kids", []⟩]⟩)
      "X" ⟨"Kid", "Kids", []⟩ (by decide) (by decide) (by decide) (by decide)

/-- C5 counterexample: the single-mode file for entity `X` with named child
`Kids → Kid` references the type name `Kid` in an emitted property, but the
written document declares only the interface `X` and contains no stub
section, so `Kid` dangles — refuting the invariant for single-mode output
documents. -/
theorem C5_counterexample :
    referencedEntityNames none [] ⟨[], [⟨"Kid", "Kids", []⟩]⟩ = ["Kid"] ∧
    (["X"] : List String).contains "Kid" = false ∧
    singleFileContents "X" ⟨[], [⟨"Kid", "Kids", []⟩]⟩ =
      "\n\nexport interface X extends SObjectAttribute<\x27X\x27> \x7b\n  Kids: ChildRecords<Kid, \x27Kid\x27>;\n\x7d;\n" :=
  ⟨by decide, by decide, by decide⟩

/-- C5 amended: in a batch run, every entity type name referenced by a
property emitted for any fetched entity is either a member of the known
entity set (for each of which an interface block is generated) or appears in
the final sorted stub list; single-mode output, by contrast, can reference
child entity types that are neither declared nor stubbed. -/
theorem C5_amended_no_dangling :
    ∀ (sobjects special completion : List String) (dOf : String → DescribeResult)
      (s n : String),
      s ∈ completion →
      n ∈ referencedEntityNames (some sobjects) special (dOf s) →
      n ∈ sobjects ∨ n ∈ batchStubList sobjects special dOf completion := by
  intro sobjects special completion dOf s n hs hn
  unfold referencedEntityNames at hn
  rcases List.mem_append.1 hn with hn | hn
  · left
    rcases List.mem_flatten.1 hn with ⟨l, hl, hnl⟩
    rcases List.mem_map.1 hl with ⟨f, _, rfl⟩
    unfold fieldRefs at hnl
    split at hnl
    · exact absurd hnl (List.not_mem_nil n)
    · split at hnl
      · exact truthy_mem sobjects n (List.of_mem_filter hnl)
      · exact absurd hnl (List.not_mem_nil n)
  · rcases List.mem_flatten.1 hn with ⟨l, hl, hnl⟩
    rcases List.mem_map.1 hl with ⟨o, ho, rfl⟩
    rcases childOutcomes_mem_inv (some sobjects) (dOf s).childRelationships special o ho
      with ⟨clone2, c, _, rfl⟩
    rcases outcomeRefs_classify sobjects clone2 c n hnl with h | ⟨hcl, rfl⟩
    · exact Or.inl h
    · right
      rw [hcl] at ho
      have hmem : c.childSObject ∈ batchUnmapped sobjects special dOf completion :=
        foldl_batchStep_mem sobjects special dOf completion [] s c.relationshipName
          c.childSObject hs ho
      exact mem_batchStubList sobjects special dOf completion c.childSObject hmem

/-- C5 amended, witness: in the one-entity batch over `["X"]`, the name
`Kid` referenced by the named child relationship resolves into the stub
list. -/
theorem C5_amended_no_dangling_witness :
    ("Kid" : String) ∈ (["X"] : List String) ∨
      ("Kid" : String) ∈ batchStubList ["X"] [] (fun _ => ⟨[], [⟨"Kid", "Kids", []⟩]⟩) ["X"] :=
  C5_amended_no_dangling ["X"] [] ["X"] (fun _ => ⟨[], [⟨"Kid", "Kids", []⟩]⟩) "X" "Kid"
    (by decide) (by decide)

/-- C8: when both mode flags are truthy, or neither is, `generate` writes
exactly the two static preamble files (in order, before the mode check) and
reports the corresponding user error to standard error; no entity-specific
file is written. -/
theorem C8_mode_error :
    ∀ (flags : Flags) (dOf : String → DescribeResult) (cs sp : List String),
      (flags.sobject ≠ "" ∧ flags.config ≠ "") ∨ (flags.sobject = "" ∧ flags.config = "") →
      generate flags dOf cs sp =
        [GenEvent.writeFile (flags.outputdir ++ "/sobject.ts") sobject,
         GenEvent.writeFile (flags.outputdir ++ "/sobjectFieldTypes.ts") sobjectFieldTypes,
         GenEvent.stderr (if flags.sobject = "" then "Please provide a -s or -c"
                          else "Please provide only -s or -c, not both")] := by
  intro flags dOf cs sp h
  unfold generate
  rcases h with ⟨hs, hc⟩ | ⟨hs, hc⟩
  · rw [if_pos ⟨hs, hc⟩, if_neg hs]
    rfl
  · rw [if_neg (fun hb : flags.sobject ≠ "" ∧ flags.config ≠ "" => hb.1 hs),
      if_neg (fun hne : flags.sobject ≠ "" => hne hs),
      if_neg (fun hne : flags.config ≠ "" => hne hc), if_pos hs]
    rfl

set_option maxRecDepth 40000 in
/-- C8 witness: with both `-s Account` and `-c cfg.json` supplied, the run
writes the two preamble files and the both-flags error message, and nothing
else. -/
theorem C8_mode_error_witness :
    generate ⟨"Account", "cfg.json", "out"⟩ (fun _ => ⟨[], []⟩) [] [] =
      [GenEvent.writeFile "out/sobject.ts" sobject,
       GenEvent.writeFile "out/sobjectFieldTypes.ts" sobjectFieldTypes,
       GenEvent.stderr "Please provide only -s or -c, not both"] := by
  have h := C8_mode_error ⟨"Account", "cfg.json", "out"⟩ (fun _ => ⟨[], []⟩) [] []
    (Or.inl ⟨by decide, by decide⟩)
  exact h.trans (by decide)

/-- C10: in single-entity mode the written file consists solely of the
entity's type block — the file header (with its import lines) is computed
into `typeContents` and immediately overwritten before the write, as the
shadowing in `singleFileContents` mirrors — while the batch-mode document
starts with that same header followed by the rest of the document. -/
theorem C10_single_header_discarded :
    ∀ (objectName : String) (d : DescribeResult) (so sp completion : List String)
      (dOf : String → DescribeResult),
      singleFileContents objectName d =
        (generateSObjectTypeContents objectName d none none []).1 ∧
      batchDocument so sp dOf completion =
        generateFileHeader
          ++ (String.join (so.map (fun _ => "[object Promise]"))
            ++ ("\n// unmapped types:"
              ++ String.join ((batchStubList so sp dOf completion).map stubLine))) := by
  intro objectName d so sp completion dOf
  refine ⟨rfl, ?_⟩
  unfold batchDocument
  rw [String.append_assoc, String.append_assoc]

end SalesforceToTypes
